import Mathlib

/-!
Verification of the upsert-graph-write core of the semantic digital twin
backend.  The embedding mirrors the Python source:

* `SLAContract` and `parseSLAContract` — the pydantic model of
  `models/schemas.py` (four fields with `min_length=1` / `gt=0` constraints;
  FastAPI rejects invalid payloads with a 422 before the handler runs).
* `Store`, `runContractQuery`, `cypher_query` — the Neo4j graph state touched
  by the single MERGE statement of `database/repository.py`, and that
  statement's semantics: get-or-create the Supplier node, the RawMaterial
  node and the SUPPLIES edge, then set the edge's two properties on both the
  create and the match branch, returning one row `(s.name, m.name)`.
* `execute_write` — `Neo4jConnection.execute_write` of
  `database/connection.py`: one managed write transaction.  A driver failure
  is modelled by the oracle `fail : Option String` carrying the exception
  message (`str(e)`); a failed transaction leaves the store unchanged.  Each
  call is logged as an `Attempt` so that at-most-once and
  parameters-only-through-the-map properties can be stated.
* `create_contract_graph` — the repository function: one `execute_write`
  call, then the confirmation dict built from `result[0]` (an empty result
  raises, which the embedding returns as `Except.error "list index out of
  range"`, Python's IndexError message).
* `upload_sla` / `handle_upload_sla` — the `api/sandbox.py` handler: success
  body `{status, message, graph_data}`, and on any exception an HTTP 500
  whose detail is the fixed prefix followed by `str(e)` verbatim.
-/

set_option maxRecDepth 4000

namespace SDT

/-- The validated SLA record (`models/schemas.py`, class `SLAContract`). -/
structure SLAContract where
  supplier_name : String
  material : String
  lead_time_days : Int
  penalty_clause : String
  deriving DecidableEq, Repr

/-- Pydantic validation of the four fields: `min_length=1` on the three
strings and `gt=0` on `lead_time_days`.  FastAPI constructs the model before
the handler is invoked; a violated constraint means no model is built. -/
def parseSLAContract (s m : String) (lt : Int) (p : String) : Option SLAContract :=
  if 1 ≤ s.length ∧ 1 ≤ m.length ∧ 0 < lt ∧ 1 ≤ p.length then
    some ⟨s, m, lt, p⟩
  else none

/-- A SUPPLIES edge of the graph: endpoints (supplier name, material name)
plus the two mutable SLA properties. -/
structure SuppliesEdge where
  src : String
  dst : String
  lead_time_days : Int
  penalty_clause : String
  deriving DecidableEq, Repr

/-- The graph store: Supplier node names, RawMaterial node names, and
SUPPLIES edges. -/
structure Store where
  suppliers : List String
  materials : List String
  edges : List SuppliesEdge
  deriving DecidableEq, Repr

/-- The parameter map bound to the query
(`parameters = {...}` in `create_contract_graph`). -/
structure QueryParams where
  supplier_name : String
  material_name : String
  lead_time_days : Int
  penalty_clause : String
  deriving DecidableEq, Repr

/-- One row returned by the query: `RETURN s.name AS supplier, m.name AS
material`. -/
structure Row where
  supplier : String
  material : String
  deriving DecidableEq, Repr

/-- The confirmation dict returned by `create_contract_graph`. -/
structure Confirmation where
  supplier : String
  material : String
  deriving DecidableEq, Repr

/-- One `execute_write` invocation: the query text and the bound parameter
map, as passed to the driver. -/
structure Attempt where
  query : String
  params : QueryParams
  deriving DecidableEq, Repr

/-- The Cypher text of `database/repository.py` (Cypher comment lines
abridged): a fixed constant — record values appear only as `$` parameters. -/
def cypher_query : String :=
"
    // Step 1: Find or create the Supplier node
    MERGE (s:Supplier \x7bname: $supplier_name\x7d)

    // Step 2: Find or create the RawMaterial node
    MERGE (m:RawMaterial \x7bname: $material_name\x7d)

    // Step 3: Find or create the SUPPLIES relationship
    MERGE (s)-[r:SUPPLIES]->(m)

    // Step 4: Set / update relationship properties
    ON CREATE SET r.lead_time_days  = $lead_time_days,
                  r.penalty_clause  = $penalty_clause
    ON MATCH  SET r.lead_time_days  = $lead_time_days,
                  r.penalty_clause  = $penalty_clause

    // Step 5: Return confirmation data
    RETURN s.name AS supplier, m.name AS material
    "

/-- `MERGE` on a node keyed by `name`: reuse it if present, create it
otherwise. -/
def mergeNode (name : String) (nodes : List String) : List String :=
  if name ∈ nodes then nodes else nodes ++ [name]

/-- Does an edge connect this (supplier, material) pair? -/
def edgeMatches (s m : String) (e : SuppliesEdge) : Bool :=
  e.src == s && e.dst == m

/-- `ON CREATE SET` / `ON MATCH SET`: both branches write the same two
properties, so every edge bound by the MERGE pattern gets the new values. -/
def setProps (s m : String) (lt : Int) (pc : String) (e : SuppliesEdge) : SuppliesEdge :=
  if edgeMatches s m e then { e with lead_time_days := lt, penalty_clause := pc } else e

/-- `MERGE (s)-[r:SUPPLIES]->(m)` followed by the two SET clauses: if an edge
between the endpoints exists it is reused and its properties overwritten;
otherwise a single new edge is created with the given properties. -/
def mergeSupplies (s m : String) (lt : Int) (pc : String)
    (edges : List SuppliesEdge) : List SuppliesEdge :=
  if edges.any (edgeMatches s m) then edges.map (setProps s m lt pc)
  else edges ++ [⟨s, m, lt, pc⟩]

/-- Semantics of `cypher_query` on the store: the three MERGEs, the SETs, and
the single returned row `(s.name, m.name)` — the `name` property of the nodes
the MERGEs bound. -/
def runContractQuery (p : QueryParams) (σ : Store) : Store × List Row :=
  (⟨mergeNode p.supplier_name σ.suppliers,
    mergeNode p.material_name σ.materials,
    mergeSupplies p.supplier_name p.material_name p.lead_time_days p.penalty_clause σ.edges⟩,
   [⟨p.supplier_name, p.material_name⟩])

/-- `Neo4jConnection.execute_write`: one managed write transaction.  `fail =
some msg` models the driver raising an exception with message `msg`
(`str(e)`); the transaction then commits nothing.  The interpreter gives
semantics only to the one statement the repository issues; the call is
logged as an `Attempt`. -/
def execute_write (fail : Option String) (q : String) (ps : QueryParams)
    (σ : Store) : Store × Except String (List Row) × List Attempt :=
  match fail with
  | some msg => (σ, Except.error msg, [⟨q, ps⟩])
  | none =>
    if q = cypher_query then
      ((runContractQuery ps σ).1, Except.ok (runContractQuery ps σ).2, [⟨q, ps⟩])
    else (σ, Except.error "unknown query", [⟨q, ps⟩])

/-- The parameter map built by `create_contract_graph` from the contract. -/
def paramMap (c : SLAContract) : QueryParams :=
  ⟨c.supplier_name, c.material, c.lead_time_days, c.penalty_clause⟩

/-- `result[0]` of the write: the confirmation dict, or Python's IndexError
when the result list is empty. -/
def confirmationOfRows (rows : List Row) : Except String Confirmation :=
  match rows with
  | [] => Except.error "list index out of range"
  | row :: _ => Except.ok ⟨row.supplier, row.material⟩

/-- Result of one repository call: final store, outcome, and the write
attempts issued against the driver. -/
structure EngineResult where
  store : Store
  result : Except String Confirmation
  attempts : List Attempt
  deriving Repr

/-- `create_contract_graph` (`database/repository.py`): build the parameter
map, run the single write transaction, and read the confirmation from
`result[0]`.  A driver exception propagates unchanged. -/
def create_contract_graph (fail : Option String) (c : SLAContract)
    (σ : Store) : EngineResult :=
  match execute_write fail cypher_query (paramMap c) σ with
  | (σ2, Except.error e, log) => ⟨σ2, Except.error e, log⟩
  | (σ2, Except.ok rows, log) => ⟨σ2, confirmationOfRows rows, log⟩

/-- The store mutation performed by one successful upsert (all four effects
of the query, with the repository's parameter map). -/
def applyContract (c : SLAContract) (σ : Store) : Store :=
  (runContractQuery (paramMap c) σ).1

/-- Success body of the handler: `{"status", "message", "graph_data"}`. -/
structure SuccessBody where
  status : String
  message : String
  graph_data : Confirmation
  deriving DecidableEq, Repr

/-- An HTTP response: a 200 with the success body, or an error status with a
detail string (`HTTPException` / FastAPI validation error). -/
inductive HttpResponse where
  | ok (body : SuccessBody)
  | error (status : Nat) (detail : String)
  deriving DecidableEq, Repr

/-- The handler's success message
(`f"SLA contract saved ... ({supplier})-[:SUPPLIES]->({material})"`). -/
def successMessage (g : Confirmation) : String :=
  "SLA contract saved to the knowledge graph. Created/updated: (" ++
    g.supplier ++ ")-[:SUPPLIES]->(" ++ g.material ++ ")"

/-- `api/sandbox.py`: turn the repository outcome into the HTTP response.
Any exception becomes a 500 whose detail is the fixed prefix followed by
`str(e)` verbatim. -/
def responseOf (res : Except String Confirmation) : HttpResponse :=
  match res with
  | Except.ok g => HttpResponse.ok ⟨"success", successMessage g, g⟩
  | Except.error e =>
      HttpResponse.error 500 ("Failed to save SLA contract to Neo4j. Reason: " ++ e)

/-- Result of one handled request: final store, HTTP response, and the write
attempts issued. -/
structure HandlerResult where
  store : Store
  response : HttpResponse
  attempts : List Attempt
  deriving DecidableEq, Repr

/-- The `upload_sla` handler body (validation already passed): persist, then
build the response. -/
def upload_sla (fail : Option String) (c : SLAContract) (σ : Store) : HandlerResult :=
  ⟨(create_contract_graph fail c σ).store,
   responseOf (create_contract_graph fail c σ).result,
   (create_contract_graph fail c σ).attempts⟩

/-- The response the handler produces from a given store result list
(`result[0]` lookup composed with the response construction). -/
def upload_sla_rows (rows : List Row) : HttpResponse :=
  responseOf (confirmationOfRows rows)

/-- The full request path: FastAPI/pydantic validation first (422 on
failure, handler never invoked, no store interaction), then the handler. -/
def handle_upload_sla (fail : Option String) (s m : String) (lt : Int)
    (p : String) (σ : Store) : HandlerResult :=
  match parseSLAContract s m lt p with
  | none => ⟨σ, HttpResponse.error 422 "validation error", []⟩
  | some c => upload_sla fail c σ

/-- Number of Supplier nodes with the given name. -/
def supplierCount (n : String) (σ : Store) : Nat := σ.suppliers.count n

/-- Number of RawMaterial nodes with the given name. -/
def materialCount (n : String) (σ : Store) : Nat := σ.materials.count n

/-- Number of SUPPLIES edges between the given pair. -/
def edgeCount (s m : String) (σ : Store) : Nat :=
  (σ.edges.filter (edgeMatches s m)).length

/-- Is the outcome a success? -/
def exceptOk {α : Type} : Except String α → Bool
  | Except.ok _ => true
  | Except.error _ => false

/-- Status code of a response (FastAPI returns 200 for a plain dict). -/
def responseStatus : HttpResponse → Nat
  | HttpResponse.ok _ => 200
  | HttpResponse.error code _ => code

/-- Detail string of an error response. -/
def responseDetail : HttpResponse → String
  | HttpResponse.ok _ => ""
  | HttpResponse.error _ d => d

/-- Does the first list occur at the head of the second? -/
def leadsList : List Char → List Char → Bool
  | [], _ => true
  | _ :: _, [] => false
  | a :: as, b :: bs => a == b && leadsList as bs

/-- Does the first list occur contiguously anywhere in the second? -/
def hasSubList (needle : List Char) : List Char → Bool
  | [] => leadsList needle []
  | b :: bs => leadsList needle (b :: bs) || hasSubList needle bs

/-- Substring test used to state what an error detail leaks. -/
def containsSub (needle hay : String) : Bool :=
  hasSubList needle.toList hay.toList

/-- The empty graph store. -/
def emptyStore : Store := ⟨[], [], []⟩

/-- The spec's first example submission: `(Acme, Steel, 14, "2% per day")`. -/
def acmeRecord : SLAContract := ⟨"Acme", "Steel", 14, "2% per day"⟩

/-- The spec's second example submission: `(Acme, Steel, 7, "5% per day")`. -/
def acmeUpdate : SLAContract := ⟨"Acme", "Steel", 7, "5% per day"⟩

/-- A realistic driver failure message: the Neo4j driver's
`ServiceUnavailable` exception embeds the target address in `str(e)`. -/
def hostFailureMsg : String :=
  "Couldn't connect to secret-host.databases.neo4j.io:7687 (resolved to ())"

example : (upload_sla none acmeRecord emptyStore).store =
    ⟨["Acme"], ["Steel"], [⟨"Acme", "Steel", 14, "2% per day"⟩]⟩ := by decide

example : containsSub "secret-host" "abc secret-host.databases xyz" = true := by decide

example : containsSub "secret-host" "abc public xyz" = false := by decide

/-! ### Helper lemmas about the MERGE semantics -/

theorem count_mergeNode_le (x n : String) (l : List String) (h : l.count n ≤ 1) :
    (mergeNode x l).count n ≤ 1 := by
  unfold mergeNode
  split
  · exact h
  · rename_i hx
    rw [List.count_append]
    by_cases hnx : x = n
    · subst hnx
      have h0 : l.count x = 0 := by
        rw [List.count_eq_zero]
        exact hx
      simp [h0, List.count_singleton]
    · have h0 : List.count n [x] = 0 := by
        simp [List.count_singleton']
        exact hnx
      omega

theorem mem_mergeNode_self (x : String) (l : List String) : x ∈ mergeNode x l := by
  unfold mergeNode
  split
  · assumption
  · simp

theorem edgeMatches_setProps (s m s2 m2 : String) (lt : Int) (pc : String)
    (e : SuppliesEdge) :
    edgeMatches s m (setProps s2 m2 lt pc e) = edgeMatches s m e := by
  unfold setProps
  split
  · simp [edgeMatches]
  · rfl

theorem countP_mergeSupplies_le (s m s2 m2 : String) (lt : Int) (pc : String)
    (l : List SuppliesEdge) (h : l.countP (edgeMatches s m) ≤ 1) :
    (mergeSupplies s2 m2 lt pc l).countP (edgeMatches s m) ≤ 1 := by
  unfold mergeSupplies
  split
  · rw [List.countP_map]
    calc l.countP (edgeMatches s m ∘ setProps s2 m2 lt pc)
        = l.countP (edgeMatches s m) :=
          List.countP_congr (fun e _ => by simp [Function.comp, edgeMatches_setProps])
      _ ≤ 1 := h
  · rename_i hany
    have hany2 : l.any (edgeMatches s2 m2) = false := by
      simpa using hany
    rw [List.countP_append]
    by_cases hnew : edgeMatches s m ⟨s2, m2, lt, pc⟩ = true
    · have hsm : s2 = s ∧ m2 = m := by
        simpa [edgeMatches] using hnew
      have h0 : l.countP (edgeMatches s m) = 0 := by
        rw [List.countP_eq_zero]
        intro e he
        have hne := (List.any_eq_false).mp hany2 e he
        rw [← hsm.1, ← hsm.2]
        exact hne
      simp [h0, List.countP_cons, hnew]
    · simp only [Bool.not_eq_true] at hnew
      simp [List.countP_cons, hnew]
      exact h

theorem countP_mergeSupplies_self (s m : String) (lt : Int) (pc : String)
    (l : List SuppliesEdge) (h : l.countP (edgeMatches s m) ≤ 1) :
    (mergeSupplies s m lt pc l).countP (edgeMatches s m) = 1 := by
  unfold mergeSupplies
  split
  · rename_i hany
    rw [List.countP_map]
    have heq : l.countP (edgeMatches s m ∘ setProps s m lt pc)
        = l.countP (edgeMatches s m) :=
      List.countP_congr (fun e _ => by simp [Function.comp, edgeMatches_setProps])
    rw [heq]
    have hpos : 0 < l.countP (edgeMatches s m) := by
      rw [List.countP_pos_iff]
      obtain ⟨e, he, hpe⟩ := List.any_eq_true.mp hany
      exact ⟨e, he, hpe⟩
    omega
  · rename_i hany
    have hany2 : l.any (edgeMatches s m) = false := by
      simpa using hany
    have h0 : l.countP (edgeMatches s m) = 0 := by
      rw [List.countP_eq_zero]
      exact fun e he => (List.any_eq_false).mp hany2 e he
    have hnew : edgeMatches s m ⟨s, m, lt, pc⟩ = true := by
      simp [edgeMatches]
    rw [List.countP_append]
    simp [h0, List.countP_cons, hnew]

theorem props_mergeSupplies (s m : String) (lt : Int) (pc : String)
    (l : List SuppliesEdge) (e : SuppliesEdge)
    (he : e ∈ mergeSupplies s m lt pc l) (hm : edgeMatches s m e = true) :
    e.lead_time_days = lt ∧ e.penalty_clause = pc := by
  unfold mergeSupplies at he
  split at he
  · obtain ⟨e2, he2, hset⟩ := List.mem_map.mp he
    unfold setProps at hset
    split at hset
    · subst hset
      exact ⟨rfl, rfl⟩
    · rename_i hno
      subst hset
      exact absurd hm hno
  · rename_i hany
    have hany2 : l.any (edgeMatches s m) = false := by
      simpa using hany
    rcases List.mem_append.mp he with hin | hin
    · exact absurd hm ((List.any_eq_false).mp hany2 e hin)
    · have : e = ⟨s, m, lt, pc⟩ := by simpa using hin
      subst this
      exact ⟨rfl, rfl⟩

theorem supplierCount_applyContract_le (n : String) (c : SLAContract) (σ : Store)
    (h : supplierCount n σ ≤ 1) : supplierCount n (applyContract c σ) ≤ 1 :=
  count_mergeNode_le _ _ _ h

theorem materialCount_applyContract_le (n : String) (c : SLAContract) (σ : Store)
    (h : materialCount n σ ≤ 1) : materialCount n (applyContract c σ) ≤ 1 :=
  count_mergeNode_le _ _ _ h

theorem edgeCount_countP (s m : String) (σ : Store) :
    edgeCount s m σ = σ.edges.countP (edgeMatches s m) :=
  (List.countP_eq_length_filter _ _).symm

theorem edgeCount_applyContract_le (s m : String) (c : SLAContract) (σ : Store)
    (h : edgeCount s m σ ≤ 1) : edgeCount s m (applyContract c σ) ≤ 1 := by
  rw [edgeCount_countP] at h ⊢
  exact countP_mergeSupplies_le _ _ _ _ _ _ _ h

theorem edgeCount_applyContract_self (c : SLAContract) (σ : Store)
    (h : edgeCount c.supplier_name c.material σ ≤ 1) :
    edgeCount c.supplier_name c.material (applyContract c σ) = 1 := by
  rw [edgeCount_countP] at h ⊢
  exact countP_mergeSupplies_self _ _ _ _ _ h

/-! ### Claim theorems -/

/-- Claim C1: any sequence of upsert calls sharing the same supplier and
material names leaves at most one Supplier node for that name, at most one
RawMaterial node for that name, and at most one SUPPLIES edge between them,
provided the store started without duplicates for them — the MERGE semantics
never create a duplicate node or edge. -/
theorem claim1_idempotent_upserts (cs : List SLAContract) (sname mname : String)
    (hall : ∀ c ∈ cs, c.supplier_name = sname ∧ c.material = mname)
    (σ : Store)
    (h1 : supplierCount sname σ ≤ 1) (h2 : materialCount mname σ ≤ 1)
    (h3 : edgeCount sname mname σ ≤ 1) :
    supplierCount sname (cs.foldl (fun s c => applyContract c s) σ) ≤ 1 ∧
    materialCount mname (cs.foldl (fun s c => applyContract c s) σ) ≤ 1 ∧
    edgeCount sname mname (cs.foldl (fun s c => applyContract c s) σ) ≤ 1 := by
  induction cs generalizing σ with
  | nil => exact ⟨h1, h2, h3⟩
  | cons c rest ih =>
    simp only [List.foldl_cons]
    exact ih (fun d hd => hall d (List.mem_cons_of_mem _ hd)) (applyContract c σ)
      (supplierCount_applyContract_le _ _ _ h1)
      (materialCount_applyContract_le _ _ _ h2)
      (edgeCount_applyContract_le _ _ _ _ h3)

/-- Witness for C1: the two example submissions of the spec, applied to the
empty store, leave one Supplier, one RawMaterial and one edge. -/
theorem claim1_idempotent_upserts_witness :
    supplierCount "Acme"
        ([acmeRecord, acmeUpdate].foldl (fun s c => applyContract c s) emptyStore) ≤ 1 ∧
    materialCount "Steel"
        ([acmeRecord, acmeUpdate].foldl (fun s c => applyContract c s) emptyStore) ≤ 1 ∧
    edgeCount "Acme" "Steel"
        ([acmeRecord, acmeUpdate].foldl (fun s c => applyContract c s) emptyStore) ≤ 1 :=
  claim1_idempotent_upserts [acmeRecord, acmeUpdate] "Acme" "Steel"
    (by decide) emptyStore (by decide) (by decide) (by decide)

/-- Claim C2: submitting two contracts for the same (supplier, material) pair
leaves exactly one SUPPLIES edge for the pair, and every edge matching the
pair carries only the second submission's `lead_time_days` and
`penalty_clause` — last write wins, nothing of the first remains. -/
theorem claim2_last_write_wins (a b : SLAContract) (σ : Store)
    (hs : a.supplier_name = b.supplier_name) (hm : a.material = b.material)
    (h : edgeCount b.supplier_name b.material σ ≤ 1) :
    edgeCount b.supplier_name b.material (applyContract b (applyContract a σ)) = 1 ∧
    ∀ e ∈ (applyContract b (applyContract a σ)).edges,
      edgeMatches b.supplier_name b.material e = true →
      e.lead_time_days = b.lead_time_days ∧ e.penalty_clause = b.penalty_clause := by
  have h1 : edgeCount b.supplier_name b.material (applyContract a σ) ≤ 1 := by
    have := edgeCount_applyContract_self a σ (by rw [hs, hm]; exact h)
    rw [hs, hm] at this
    omega
  refine ⟨edgeCount_applyContract_self b _ h1, ?_⟩
  intro e he hmatch
  exact props_mergeSupplies _ _ _ _ _ _ he hmatch

/-- Witness for C2: the spec's example — `(Acme, Steel, 14, "2% per day")`
then `(Acme, Steel, 7, "5% per day")` — ends with one edge carrying the
second values. -/
theorem claim2_last_write_wins_witness :
    edgeCount "Acme" "Steel" (applyContract acmeUpdate (applyContract acmeRecord emptyStore)) = 1 ∧
    ∀ e ∈ (applyContract acmeUpdate (applyContract acmeRecord emptyStore)).edges,
      edgeMatches "Acme" "Steel" e = true →
      e.lead_time_days = (7 : Int) ∧ e.penalty_clause = "5% per day" :=
  claim2_last_write_wins acmeRecord acmeUpdate emptyStore rfl rfl (by decide)

/-- Claim C3: the upsert is one atomic write — on success the store holds
exactly the four effects of the query (`applyContract`), and on failure the
store is exactly what it was before the call; no intermediate state exists. -/
theorem claim3_atomic_write (fail : Option String) (c : SLAContract) (σ : Store) :
    (exceptOk (create_contract_graph fail c σ).result = true →
      (create_contract_graph fail c σ).store = applyContract c σ) ∧
    (exceptOk (create_contract_graph fail c σ).result = false →
      (create_contract_graph fail c σ).store = σ) := by
  cases fail with
  | none =>
    have hred : create_contract_graph none c σ =
        ⟨applyContract c σ, Except.ok ⟨c.supplier_name, c.material⟩,
         [⟨cypher_query, paramMap c⟩]⟩ := rfl
    rw [hred]
    exact ⟨fun _ => rfl, fun hko => by simp [exceptOk] at hko⟩
  | some msg =>
    have hred : create_contract_graph (some msg) c σ =
        ⟨σ, Except.error msg, [⟨cypher_query, paramMap c⟩]⟩ := rfl
    rw [hred]
    exact ⟨fun hok => by simp [exceptOk] at hok, fun _ => rfl⟩

/-- Witness for C3: a successful call on the empty store commits all four
effects; a failed call leaves the empty store unchanged. -/
theorem claim3_atomic_write_witness :
    (create_contract_graph none acmeRecord emptyStore).store =
      applyContract acmeRecord emptyStore ∧
    (create_contract_graph (some "transaction aborted") acmeRecord emptyStore).store =
      emptyStore :=
  ⟨(claim3_atomic_write none acmeRecord emptyStore).1 rfl,
   (claim3_atomic_write (some "transaction aborted") acmeRecord emptyStore).2 rfl⟩

/-- Claim C4: the confirmation of a successful call is built from the row the
store returned for the write (`result[0]`), and its supplier and material
values are names present in the persisted store after the call. -/
theorem claim4_confirmation_from_store (c : SLAContract) (σ : Store)
    (g : Confirmation)
    (h : (create_contract_graph none c σ).result = Except.ok g) :
    (∃ row, (runContractQuery (paramMap c) σ).2.head? = some row ∧
        g = ⟨row.supplier, row.material⟩) ∧
    g.supplier ∈ (create_contract_graph none c σ).store.suppliers ∧
    g.material ∈ (create_contract_graph none c σ).store.materials := by
  have hg : (⟨c.supplier_name, c.material⟩ : Confirmation) = g := by
    have h2 : Except.ok (⟨c.supplier_name, c.material⟩ : Confirmation) = Except.ok g := h
    injection h2
  subst hg
  exact ⟨⟨⟨c.supplier_name, c.material⟩, rfl, rfl⟩,
    mem_mergeNode_self _ _, mem_mergeNode_self _ _⟩

/-- Witness for C4: on the empty store, confirming `acmeRecord` returns the
head row and the persisted names. -/
theorem claim4_confirmation_from_store_witness :
    (∃ row, (runContractQuery (paramMap acmeRecord) emptyStore).2.head? = some row ∧
        (⟨"Acme", "Steel"⟩ : Confirmation) = ⟨row.supplier, row.material⟩) ∧
    "Acme" ∈ (create_contract_graph none acmeRecord emptyStore).store.suppliers ∧
    "Steel" ∈ (create_contract_graph none acmeRecord emptyStore).store.materials :=
  claim4_confirmation_from_store acmeRecord emptyStore ⟨"Acme", "Steel"⟩ rfl

/-- Claim C5: a write that returns an empty result list makes the call report
an internal persistence error — surfaced by the handler as a 500 with the
propagated IndexError message — never a success confirmation. -/
theorem claim5_empty_result_reports_error :
    confirmationOfRows [] = Except.error "list index out of range" ∧
    upload_sla_rows [] =
      HttpResponse.error 500
        "Failed to save SLA contract to Neo4j. Reason: list index out of range" ∧
    responseStatus (upload_sla_rows []) = 500 := by
  refine ⟨rfl, ?_, rfl⟩
  decide

/-- Counterexample to C6 as stated: a store-level failure whose exception
message carries the connection host (as the Neo4j driver's
`ServiceUnavailable` message does) is surfaced with that host verbatim in the
500 detail — internal connection details do leak. -/
theorem claim6_counterexample_leaks_host :
    responseStatus (upload_sla (some hostFailureMsg) acmeRecord emptyStore).response = 500 ∧
    containsSub "secret-host.databases.neo4j.io:7687"
      (responseDetail
        (upload_sla (some hostFailureMsg) acmeRecord emptyStore).response) = true := by
  refine ⟨rfl, ?_⟩
  decide

/-- Claim C6 amended: every store-level failure is surfaced as a 500 whose
detail is the fixed prefix followed by the exception's message verbatim — no
stack trace is attached, but whatever connection details appear in the
driver's message pass through to the caller. -/
theorem claim6_amended_message_passthrough (msg : String) (c : SLAContract)
    (σ : Store) :
    (upload_sla (some msg) c σ).response =
      HttpResponse.error 500 ("Failed to save SLA contract to Neo4j. Reason: " ++ msg) :=
  rfl

/-- Claim C7: a record with a non-positive `lead_time_days` or an empty
`supplier_name`, `material` or `penalty_clause` fails validation: the request
is rejected with a 422 before the engine runs, with zero write attempts and
the store untouched. -/
theorem claim7_validation_boundary (fail : Option String) (s m : String)
    (lt : Int) (p : String) (σ : Store)
    (h : s = "" ∨ m = "" ∨ lt ≤ 0 ∨ p = "") :
    (handle_upload_sla fail s m lt p σ).store = σ ∧
    (handle_upload_sla fail s m lt p σ).attempts = [] ∧
    (handle_upload_sla fail s m lt p σ).response =
      HttpResponse.error 422 "validation error" := by
  have hinval : parseSLAContract s m lt p = none := by
    unfold parseSLAContract
    rw [if_neg]
    rintro ⟨h1, h2, h3, h4⟩
    rcases h with rfl | rfl | hlt | rfl
    · simp at h1
    · simp at h2
    · omega
    · simp at h4
  unfold handle_upload_sla
  rw [hinval]
  exact ⟨rfl, rfl, rfl⟩

/-- Witness for C7: an empty supplier name with otherwise valid fields is
rejected with a 422, no writes, store unchanged. -/
theorem claim7_validation_boundary_witness :
    (handle_upload_sla none "" "Steel" 14 "2% per day" emptyStore).store = emptyStore ∧
    (handle_upload_sla none "" "Steel" 14 "2% per day" emptyStore).attempts = [] ∧
    (handle_upload_sla none "" "Steel" 14 "2% per day" emptyStore).response =
      HttpResponse.error 422 "validation error" :=
  claim7_validation_boundary none "" "Steel" 14 "2% per day" emptyStore (Or.inl rfl)

/-- Claim C8: each upsert call issues exactly one write attempt against the
store, whether the transaction succeeds or fails — never a retry. -/
theorem claim8_at_most_one_write (fail : Option String) (c : SLAContract)
    (σ : Store) :
    (create_contract_graph fail c σ).attempts.length = 1 := by
  cases fail <;> rfl

/-- Claim C9: the query text passed to the write is the fixed constant
`cypher_query` for every record, and the four contract values reach the store
only through the bound parameter map `paramMap c`. -/
theorem claim9_constant_query_bound_params (fail : Option String)
    (c : SLAContract) (σ : Store) :
    (create_contract_graph fail c σ).attempts = [⟨cypher_query, paramMap c⟩] := by
  cases fail <;> rfl

/-- Claim C10: on success the handler's response carries status `"success"`
and a `graph_data` built only from the first row of the store's result list;
rows after the first never influence the response. -/
theorem claim10_first_row_only (row : Row) (rest rest2 : List Row)
    (c : SLAContract) (σ : Store) :
    upload_sla_rows (row :: rest) =
      HttpResponse.ok ⟨"success", successMessage ⟨row.supplier, row.material⟩,
        ⟨row.supplier, row.material⟩⟩ ∧
    upload_sla_rows (row :: rest) = upload_sla_rows (row :: rest2) ∧
    (upload_sla none c σ).response =
      upload_sla_rows (runContractQuery (paramMap c) σ).2 :=
  ⟨rfl, rfl, rfl⟩

end SDT

